import Mathlib

/-!
Verification of the video_displayer pipeline (src/examples/video_displayer/src/main.rs).

The development shallowly embeds the three parts of the pipeline the claims
concern:

1. the conversion task body (lines 41-56 of main.rs): given a raw BGRA byte
   buffer, skip it when empty, otherwise build a buffer of width*height packed
   u32 values, indexing panicking when out of bounds;
2. the frame relay: a tokio mpsc channel of capacity 2, with try_send on the
   producer side (new value dropped when full, result discarded) and a
   try_recv drain loop on the consumer side keeping only the last value;
3. the render loop and shutdown path: the while loop over window state with a
   fallible draw call propagated by the question-mark operator, followed by a
   single awaited stop_capturing call whose result is propagated.

Bytes are modelled as natural numbers; the packed value (r <<< 16) ||| (g <<< 8) ||| b
cannot overflow a u32 for byte inputs, so no modular reduction is needed.
-/

namespace EncVideo

/-! ### Frame conversion (main.rs, conversion task, lines 41-56) -/

/-- Reading of one pixel by the conversion loop body: bytes at offsets 4i,
4i+1, 4i+2 are read as b, g, r and packed as (r << 16) | (g << 8) | b.
A `none` result models an out-of-bounds index, which panics in the source. -/
def packPixel (raw : List Nat) (i : Nat) : Option Nat :=
  match raw[4*i]?, raw[4*i+1]?, raw[4*i+2]? with
  | some b, some g, some r => some ((r <<< 16) ||| (g <<< 8) ||| b)
  | _, _, _ => none

/-- The conversion loop `for i in 0..width*height`, accumulating packed pixels
in index order; `none` if any iteration indexes out of bounds. -/
def pixels (raw : List Nat) : Nat → Option (List Nat)
  | 0 => some []
  | n+1 =>
    match pixels raw n, packPixel raw n with
    | some f, some p => some (f ++ [p])
    | _, _ => none

/-- Outcome of one iteration of the conversion task for a received raw frame:
either the frame is skipped (the `is_empty` guard hits `continue`), or the
loop panics on an out-of-bounds index, or a converted frame is produced. -/
inductive ConvResult where
  | skipped
  | panicked
  | frame (f : List Nat)
deriving DecidableEq, Repr

/-- The conversion step of main.rs: `if raw_data.is_empty() { continue; }`
followed by the packing loop. -/
def convertStep (width height : Nat) (raw : List Nat) : ConvResult :=
  if raw.isEmpty then ConvResult.skipped
  else
    match pixels raw (width*height) with
    | some f => ConvResult.frame f
    | none => ConvResult.panicked

/-- The packed value of pixel i when all three reads are in bounds. -/
def packVal (raw : List Nat) (i : Nat) : Nat :=
  ((raw.getD (4*i+2) 0) <<< 16) ||| ((raw.getD (4*i+1) 0) <<< 8) ||| raw.getD (4*i) 0

theorem packPixel_eq_of_lt (raw : List Nat) (i : Nat) (h : 4*i+2 < raw.length) :
    packPixel raw i = some (packVal raw i) := by
  have h0 : 4*i < raw.length := by omega
  have h1 : 4*i+1 < raw.length := by omega
  simp [packPixel, packVal, List.getElem?_eq_getElem, h0, h1, h,
    List.getD_eq_getElem?_getD]

theorem packPixel_eq_none (raw : List Nat) (i : Nat) (h : raw.length ≤ 4*i+2) :
    packPixel raw i = none := by
  have h2 : raw[4*i+2]? = none := by
    rw [List.getElem?_eq_none_iff]
    omega
  unfold packPixel
  rw [h2]
  cases raw[4*i]? <;> cases raw[4*i+1]? <;> rfl

theorem pixels_eq_some (raw : List Nat) (n : Nat)
    (h : ∀ i, i < n → 4*i+2 < raw.length) :
    pixels raw n = some ((List.range n).map (packVal raw)) := by
  induction n with
  | zero => rfl
  | succ k ih =>
    have h1 := ih (fun i hi => h i (Nat.lt_succ_of_lt hi))
    have h2 := packPixel_eq_of_lt raw k (h k (Nat.lt_succ_self k))
    simp [pixels, h1, h2, List.range_succ]

theorem pixels_eq_none (raw : List Nat) (n i : Nat) (hi : i < n)
    (h : packPixel raw i = none) : pixels raw n = none := by
  induction n with
  | zero => omega
  | succ k ih =>
    by_cases hik : i = k
    · subst hik
      unfold pixels
      rw [h]
      cases hp : pixels raw i <;> simp [hp]
    · have hk := ih (by omega)
      unfold pixels
      rw [hk]

theorem convertStep_frame (w h : Nat) (raw : List Nat)
    (hne : raw ≠ []) (hb : ∀ i, i < w*h → 4*i+2 < raw.length) :
    convertStep w h raw = ConvResult.frame ((List.range (w*h)).map (packVal raw)) := by
  unfold convertStep
  rw [if_neg (by simpa using hne), pixels_eq_some raw _ hb]

/-- C1: for a raw frame of length exactly width*height*4 (positive dimensions,
per the data model), the conversion step produces a frame of exactly
width*height packed values, the value at pixel i being
(r <<< 16) ||| (g <<< 8) ||| b with b, g, r the bytes at offsets 4i, 4i+1,
4i+2 of the input and the alpha byte at 4i+3 not contributing; instantiated
at the concrete scenario by the witness. -/
theorem C1_converter_packs_bgra (w h : Nat) (raw : List Nat)
    (hw : 0 < w) (hh : 0 < h) (hlen : raw.length = w*h*4) :
    ∃ f, convertStep w h raw = ConvResult.frame f ∧ f.length = w*h ∧
      ∀ i, i < w*h →
        f[i]? = some (((raw.getD (4*i+2) 0) <<< 16) |||
                      ((raw.getD (4*i+1) 0) <<< 8) ||| raw.getD (4*i) 0) := by
  have hpos : 0 < w*h := Nat.mul_pos hw hh
  have hb : ∀ i, i < w*h → 4*i+2 < raw.length := by
    intro i hi
    have : i + 1 ≤ w*h := hi
    omega
  have hne : raw ≠ [] := by
    intro hnil
    rw [hnil] at hlen
    simp only [List.length_nil] at hlen
    omega
  refine ⟨(List.range (w*h)).map (packVal raw), convertStep_frame w h raw hne hb, by simp, ?_⟩
  intro i hi
  rw [List.getElem?_map, List.getElem?_range hi]
  rfl

/-- C1 witness: concrete scenario A, width 2, height 1,
raw = [10,20,30,255, 40,50,60,255], converted = [0x1E140A, 0x3C3228]. -/
theorem C1_converter_packs_bgra_witness :
    convertStep 2 1 [10,20,30,255,40,50,60,255] =
      ConvResult.frame [0x1E140A, 0x3C3228] ∧
    ∃ f, convertStep 2 1 [10,20,30,255,40,50,60,255] = ConvResult.frame f ∧
      f.length = 2*1 ∧
      ∀ i, i < 2*1 →
        f[i]? = some ((([10,20,30,255,40,50,60,255].getD (4*i+2) 0) <<< 16) |||
                      (([10,20,30,255,40,50,60,255].getD (4*i+1) 0) <<< 8) |||
                      [10,20,30,255,40,50,60,255].getD (4*i) 0) :=
  ⟨by decide,
   C1_converter_packs_bgra 2 1 [10,20,30,255,40,50,60,255]
     (by decide) (by decide) (by decide)⟩

/-- C2 counterexample: the raw frame [5] with width 1, height 1 is non-empty
and shorter than 1*1*4 = 4 bytes, yet the conversion step is not a no-op: the
loop indexes out of bounds (a panic in the source), because the guard in
main.rs checks only is_empty. -/
theorem C2_short_frame_counterexample :
    ([5] : List Nat).length < 1*1*4 ∧
    convertStep 1 1 [5] = ConvResult.panicked := by decide

/-- C2 amended: an empty raw frame is skipped with no frame produced and no
error; a raw frame with length + 1 < width*height*4 is non-empty enough to
enter the loop only if non-empty, and then the loop indexes out of bounds
(panics); at the boundary, a raw frame of length exactly width*height*4 - 1
(only the final alpha byte missing) is still converted to a full frame, since
the loop never reads the alpha byte. -/
theorem C2_short_frame_amended (w h : Nat) (raw : List Nat) :
    (raw = [] → convertStep w h raw = ConvResult.skipped) ∧
    (raw ≠ [] → raw.length + 1 < w*h*4 →
      convertStep w h raw = ConvResult.panicked) ∧
    (raw.length + 1 = w*h*4 →
      ∃ f, convertStep w h raw = ConvResult.frame f ∧ f.length = w*h) := by
  refine ⟨?_, ?_, ?_⟩
  · intro hnil
    rw [hnil]
    rfl
  · intro hne hshort
    have hpos : 0 < w*h := by
      by_contra hz
      have : w*h = 0 := by omega
      rw [this] at hshort
      omega
    have hlast : packPixel raw (w*h - 1) = none := by
      apply packPixel_eq_none
      omega
    have hnone : pixels raw (w*h) = none :=
      pixels_eq_none raw (w*h) (w*h - 1) (by omega) hlast
    unfold convertStep
    rw [if_neg (by simpa using hne), hnone]
  · intro hlen
    have hpos : 0 < w*h := by
      by_contra hz
      have : w*h = 0 := by omega
      rw [this] at hlen
      omega
    have hne : raw ≠ [] := by
      intro hnil
      rw [hnil] at hlen
      simp at hlen
      omega
    have hb : ∀ i, i < w*h → 4*i+2 < raw.length := by
      intro i hi
      have : i + 1 ≤ w*h := hi
      omega
    exact ⟨(List.range (w*h)).map (packVal raw), convertStep_frame w h raw hne hb, by simp⟩

/-- C2 amended witness: the empty frame is skipped; [5] panics for 1x1; a
3-byte frame for 1x1 (alpha missing) still converts. -/
theorem C2_short_frame_amended_witness :
    convertStep 1 1 [] = ConvResult.skipped ∧
    convertStep 1 1 [5] = ConvResult.panicked ∧
    ∃ f, convertStep 1 1 [10, 20, 30] = ConvResult.frame f ∧ f.length = 1*1 :=
  ⟨(C2_short_frame_amended 1 1 []).1 rfl,
   (C2_short_frame_amended 1 1 [5]).2.1 (by decide) (by decide),
   (C2_short_frame_amended 1 1 [10, 20, 30]).2.2 (by decide)⟩

/-- C9: for a raw frame of length at least width*height*4 with
width*height > 0, every byte access of the conversion loop is in bounds, so
the conversion completes without a panic and produces a frame of exactly
width*height values. -/
theorem C9_inbounds_no_panic (w h : Nat) (raw : List Nat)
    (hpos : 0 < w*h) (hlen : w*h*4 ≤ raw.length) :
    ∃ f, convertStep w h raw = ConvResult.frame f ∧ f.length = w*h := by
  have hb : ∀ i, i < w*h → 4*i+2 < raw.length := by
    intro i hi
    have : i + 1 ≤ w*h := hi
    omega
  have hne : raw ≠ [] := by
    intro hnil
    rw [hnil] at hlen
    simp only [List.length_nil] at hlen
    omega
  exact ⟨(List.range (w*h)).map (packVal raw), convertStep_frame w h raw hne hb, by simp⟩

/-- C9 witness: a 5-byte frame for 1x1 converts to one value. -/
theorem C9_inbounds_no_panic_witness :
    ∃ f, convertStep 1 1 [1, 2, 3, 4, 5] = ConvResult.frame f ∧ f.length = 1*1 :=
  C9_inbounds_no_panic 1 1 [1, 2, 3, 4, 5] (by decide) (by decide)

/-- C10: a raw frame strictly longer than width*height*4 bytes is not skipped
but converted, and the result depends only on the first width*height*4 bytes:
two oversized frames agreeing on that prefix convert identically. -/
theorem C10_trailing_bytes_ignored (w h : Nat) (raw1 raw2 : List Nat)
    (h1 : w*h*4 < raw1.length) (h2 : w*h*4 < raw2.length)
    (hpre : raw1.take (w*h*4) = raw2.take (w*h*4)) :
    (∃ f, convertStep w h raw1 = ConvResult.frame f) ∧
    convertStep w h raw1 = convertStep w h raw2 := by
  have hb1 : ∀ i, i < w*h → 4*i+2 < raw1.length := by
    intro i hi
    have : i + 1 ≤ w*h := hi
    omega
  have hb2 : ∀ i, i < w*h → 4*i+2 < raw2.length := by
    intro i hi
    have : i + 1 ≤ w*h := hi
    omega
  have hne1 : raw1 ≠ [] := by
    intro hnil
    rw [hnil] at h1
    simp at h1
  have hne2 : raw2 ≠ [] := by
    intro hnil
    rw [hnil] at h2
    simp at h2
  have hagree : ∀ j, j < w*h*4 → raw1.getD j 0 = raw2.getD j 0 := by
    intro j hj
    have e1 : (raw1.take (w*h*4)).getD j 0 = raw1.getD j 0 := by
      rw [List.getD_eq_getElem?_getD, List.getD_eq_getElem?_getD,
        List.getElem?_take_of_lt hj]
    have e2 : (raw2.take (w*h*4)).getD j 0 = raw2.getD j 0 := by
      rw [List.getD_eq_getElem?_getD, List.getD_eq_getElem?_getD,
        List.getElem?_take_of_lt hj]
    rw [← e1, ← e2, hpre]
  have hpack : ∀ i, i < w*h → packVal raw1 i = packVal raw2 i := by
    intro i hi
    have : i + 1 ≤ w*h := hi
    unfold packVal
    rw [hagree (4*i) (by omega), hagree (4*i+1) (by omega), hagree (4*i+2) (by omega)]
  rw [convertStep_frame w h raw1 hne1 hb1, convertStep_frame w h raw2 hne2 hb2]
  refine ⟨⟨_, rfl⟩, ?_⟩
  exact congrArg ConvResult.frame
    (List.map_congr_left (fun i hi => hpack i (List.mem_range.mp hi)))

/-- C10 witness: two 1x1 frames of length 5 and 6 agreeing on the first 4
bytes convert identically, and are converted rather than skipped. -/
theorem C10_trailing_bytes_ignored_witness :
    (∃ f, convertStep 1 1 [1, 2, 3, 4, 9] = ConvResult.frame f) ∧
    convertStep 1 1 [1, 2, 3, 4, 9] = convertStep 1 1 [1, 2, 3, 4, 7, 8] :=
  C10_trailing_bytes_ignored 1 1 [1, 2, 3, 4, 9] [1, 2, 3, 4, 7, 8]
    (by decide) (by decide) (by decide)

/-! ### Frame relay (main.rs: mpsc::channel of capacity 2, tx.try_send,
rx.try_recv drain in the render loop) -/

/-- Capacity of the channel created by mpsc::channel::<Vec<u32>>(2). -/
def relayCapacity : Nat := 2

/-- The producer side tx.try_send with the result discarded: when the channel
has room the frame is enqueued at the back, otherwise the queue is unchanged
and the new frame is dropped. -/
def trySend {α : Type} (q : List α) (f : α) : List α :=
  if q.length < relayCapacity then q ++ [f] else q

/-- The consumer drain loop `while let Ok(new_frame) = rx.try_recv()
\x7b current_frame = new_frame; \x7d`: frames are received in FIFO order, each
overwriting the current one, so the last queued frame wins; an empty queue
leaves the current frame untouched. -/
def drain {α : Type} (current : α) : List α → α
  | [] => current
  | f :: rest => drain f rest

/-- Joint state of the relay queue and the displayed frame owned by the
render loop. -/
structure RelayState (α : Type) where
  queue : List α
  displayed : α
deriving Repr

/-- The two kinds of events acting on the relay: the conversion task
publishing a frame via try_send, and the render loop polling (the try_recv
drain followed by drawing). -/
inductive RelayEvent (α : Type) where
  | publish (f : α)
  | poll
deriving Repr

/-- Effect of one event on the relay state: publish runs try_send and leaves
the displayed frame alone; poll empties the queue, retaining its last
element (if any) as the new displayed frame. -/
def step {α : Type} (s : RelayState α) : RelayEvent α → RelayState α
  | RelayEvent.publish f => { s with queue := trySend s.queue f }
  | RelayEvent.poll => { queue := [], displayed := drain s.displayed s.queue }

/-- Run of the relay system over a sequence of events. -/
def run {α : Type} (s : RelayState α) (events : List (RelayEvent α)) : RelayState α :=
  events.foldl step s

/-- Initial state of main.rs: the channel is empty and
current_frame = vec![0u32; width * height]. -/
def initState (width height : Nat) : RelayState (List Nat) :=
  { queue := [], displayed := List.replicate (width*height) 0 }

theorem drain_eq_getLast {α : Type} (q : List α) :
    ∀ c, drain c q = q.getLast?.getD c := by
  induction q with
  | nil => intro c; rfl
  | cons f rest ih =>
    intro c
    rw [drain, ih f]
    cases rest with
    | nil => rfl
    | cons g t =>
      rw [List.getLast?_cons_cons]
      cases hx : (g :: t).getLast? with
      | none => simp [List.getLast?_eq_none_iff] at hx
      | some x => rfl

/-- C3 counterexample: with the relay full at [[1],[2]] (oldest [1] first),
publishing [3] leaves the queue unchanged: the oldest frame [1] is not
evicted and the new frame [3] is not retained, contradicting
drop-oldest-on-overflow, which would yield [[2],[3]]. -/
theorem C3_drop_oldest_counterexample :
    trySend ([[1],[2]] : List (List Nat)) [3] = [[1],[2]] ∧
    ([3] : List Nat) ∉ trySend ([[1],[2]] : List (List Nat)) [3] ∧
    trySend ([[1],[2]] : List (List Nat)) [3] ≠ [[2],[3]] := by decide

/-- C3 amended: when a converted frame is inserted into a full frame relay,
the NEW frame is dropped and the pending frames are unchanged (the oldest is
retained): tx.try_send fails on a full channel and the Err result is
discarded, so the overflow policy is drop-newest, not drop-oldest. -/
theorem C3_drop_newest_on_overflow {α : Type} (q : List α) (f : α)
    (hfull : relayCapacity ≤ q.length) : trySend q f = q := by
  unfold trySend
  rw [if_neg (by omega)]

/-- C3 amended witness: inserting [9] into the full queue [[4],[5]] drops the
new frame. -/
theorem C3_drop_newest_on_overflow_witness :
    trySend ([[4],[5]] : List (List Nat)) [9] = [[4],[5]] :=
  C3_drop_newest_on_overflow [[4],[5]] [9] (by decide)

/-- C4: on each render-loop poll, all queued frames are drained (the queue
becomes empty) and the displayed frame becomes the last queued one, the
previous displayed frame being kept when the queue was empty; publishing f1
then f2 from an empty relay and then polling displays exactly f2, and f1 is
never displayed at any point of that run and is no longer recoverable from
the queue. -/
theorem C4_poll_keeps_last {α : Type} (s : RelayState α) (d f1 f2 : α) :
    ((step s RelayEvent.poll).queue = []) ∧
    ((step s RelayEvent.poll).displayed = s.queue.getLast?.getD s.displayed) ∧
    (s.queue = [] → (step s RelayEvent.poll).displayed = s.displayed) ∧
    ((run ⟨[], d⟩ ([] : List (RelayEvent α))).displayed = d) ∧
    ((run ⟨[], d⟩ [RelayEvent.publish f1]).displayed = d) ∧
    ((run ⟨[], d⟩ [RelayEvent.publish f1, RelayEvent.publish f2]).displayed = d) ∧
    (run ⟨[], d⟩ [RelayEvent.publish f1, RelayEvent.publish f2, RelayEvent.poll] =
      ⟨[], f2⟩) := by
  refine ⟨rfl, ?_, ?_, rfl, rfl, rfl, rfl⟩
  · show drain s.displayed s.queue = _
    rw [drain_eq_getLast]
  · intro hq
    show drain s.displayed s.queue = _
    rw [hq]
    rfl

/-- C4 witness: instantiation at frames [1], [2] over displayed frame [0]. -/
theorem C4_poll_keeps_last_witness :
    run (⟨[], [0]⟩ : RelayState (List Nat))
      [RelayEvent.publish [1], RelayEvent.publish [2], RelayEvent.poll] =
      ⟨[], [2]⟩ ∧
    (step (⟨[], [0]⟩ : RelayState (List Nat)) RelayEvent.poll).displayed = [0] :=
  ⟨(C4_poll_keeps_last ⟨[], [0]⟩ [0] [1] [2]).2.2.2.2.2.2,
   (C4_poll_keeps_last (⟨[], [0]⟩ : RelayState (List Nat)) [0] [1] [2]).2.2.1 rfl⟩

/-- C5: starting from the initial state, after any sequence of publish and
poll events the relay queue holds at most 2 pending converted frames. -/
theorem C5_relay_bounded (w h : Nat) (events : List (RelayEvent (List Nat))) :
    (run (initState w h) events).queue.length ≤ 2 := by
  suffices H : ∀ s : RelayState (List Nat), s.queue.length ≤ 2 →
      (run s events).queue.length ≤ 2 by
    exact H _ (by simp [initState])
  induction events with
  | nil => intro s hs; exact hs
  | cons e rest ih =>
    intro s hs
    show (run (step s e) rest).queue.length ≤ 2
    refine ih _ ?_
    cases e with
    | publish f =>
      show (trySend s.queue f).length ≤ 2
      unfold trySend relayCapacity
      split
      · rw [List.length_append]
        simp only [List.length_cons, List.length_nil]
        omega
      · exact hs
    | poll => simp [step]

/-- C7: the producer-side insertion is a total function of the state (the
producer never blocks): it never changes the displayed frame, on a full
queue it leaves the queue unchanged (the new frame is dropped, with the Err
result of try_send discarded), and otherwise it appends the frame. -/
theorem C7_try_send_never_blocks {α : Type} (s : RelayState α) (f : α) :
    ((step s (RelayEvent.publish f)).displayed = s.displayed) ∧
    (relayCapacity ≤ s.queue.length →
      (step s (RelayEvent.publish f)).queue = s.queue) ∧
    (s.queue.length < relayCapacity →
      (step s (RelayEvent.publish f)).queue = s.queue ++ [f]) := by
  refine ⟨rfl, ?_, ?_⟩
  · intro hfull
    show trySend s.queue f = s.queue
    unfold trySend
    rw [if_neg (by omega)]
  · intro hroom
    show trySend s.queue f = s.queue ++ [f]
    unfold trySend
    rw [if_pos hroom]

/-- C7 witness: publishing into a full and into a non-full relay state. -/
theorem C7_try_send_never_blocks_witness :
    (step (⟨[[1],[2]], [0]⟩ : RelayState (List Nat))
        (RelayEvent.publish [3])).queue = [[1],[2]] ∧
    (step (⟨[[1]], [0]⟩ : RelayState (List Nat))
        (RelayEvent.publish [3])).queue = [[1]] ++ [[3]] :=
  ⟨(C7_try_send_never_blocks ⟨[[1],[2]], [0]⟩ [3]).2.1 (by decide),
   (C7_try_send_never_blocks ⟨[[1]], [0]⟩ [3]).2.2 (by decide)⟩

/-- C8: the displayed frame starts as width*height zeros (black) -- it equals
List.replicate (w*h) 0, has length w*h and every entry 0 -- and it is mutated
only by the render loop: a producer publish event never changes it. -/
theorem C8_displayed_init_black (w h : Nat) (s : RelayState (List Nat))
    (f : List Nat) :
    ((initState w h).displayed = List.replicate (w*h) 0) ∧
    ((initState w h).displayed.length = w*h) ∧
    (∀ i, i < w*h → (initState w h).displayed[i]? = some 0) ∧
    ((step s (RelayEvent.publish f)).displayed = s.displayed) := by
  refine ⟨rfl, by simp [initState], ?_, rfl⟩
  intro i hi
  show (List.replicate (w*h) 0)[i]? = some 0
  rw [List.getElem?_replicate]
  simp [hi]

/-- C8 witness: instantiation at width 2, height 1 and a publish event on a
concrete state. -/
theorem C8_displayed_init_black_witness :
    ((initState 2 1).displayed = List.replicate (2*1) 0) ∧
    (∀ i, i < 2*1 → (initState 2 1).displayed[i]? = some 0) ∧
    ((step (⟨[], [7]⟩ : RelayState (List Nat))
        (RelayEvent.publish [9])).displayed = [7]) :=
  ⟨(C8_displayed_init_black 2 1 ⟨[], [7]⟩ [9]).1,
   (C8_displayed_init_black 2 1 ⟨[], [7]⟩ [9]).2.2.1,
   (C8_displayed_init_black 2 1 ⟨[], [7]⟩ [9]).2.2.2⟩

/-! ### Render loop and shutdown (main.rs, lines 75-95): the while loop over
window.is_open and the Escape key, the fallible update_with_buffer call whose
error the question-mark operator propagates, and the final awaited
stop_capturing call, also propagated by the question-mark operator. -/

/-- Observations of one tick of the render loop: what window.is_open and
is_key_pressed(Escape) report, and whether update_with_buffer succeeds. -/
structure Tick where
  isOpen : Bool
  escapePressed : Bool
  updateOk : Bool
deriving DecidableEq, Repr

/-- How the while loop ends: the loop condition turned false (window closed
or Escape observed), the draw call returned an error which the question-mark
operator propagates out of main, or the supplied observations ran out with
the loop still going. -/
inductive LoopExit where
  | exited
  | drawError
  | stillRunning
deriving DecidableEq, Repr

/-- The while loop of main.rs over a sequence of tick observations. -/
def renderLoop : List Tick → LoopExit
  | [] => LoopExit.stillRunning
  | t :: rest =>
    if t.isOpen && !t.escapePressed then
      if t.updateOk then renderLoop rest else LoopExit.drawError
    else LoopExit.exited

/-- Errors main can return: a failed update_with_buffer call, or a failed
stop_capturing call. -/
inductive RunError where
  | drawFailed
  | stopFailed
deriving DecidableEq, Repr

/-- Propagation of the awaited stop_capturing result by the question-mark
operator: an Err becomes the final result of main, an Ok lets main return
Ok(()). -/
def propagateStop (stopRes : Except Unit Unit) : Except RunError Unit :=
  match stopRes with
  | Except.ok _ => Except.ok ()
  | Except.error _ => Except.error RunError.stopFailed

/-- Number of stop_capturing calls made and the final result of main. -/
structure RunOutcome where
  stopCalls : Nat
  result : Except RunError Unit
deriving Repr

/-- The shutdown path of main.rs: when the while loop exits normally,
stop_capturing is called exactly once and its result is awaited and
propagated; when the draw call fails, main returns that error at once and
stop_capturing is never called; none when the loop is still running. -/
def mainRun (ticks : List Tick) (stopRes : Except Unit Unit) : Option RunOutcome :=
  match renderLoop ticks with
  | LoopExit.stillRunning => none
  | LoopExit.drawError => some ⟨0, Except.error RunError.drawFailed⟩
  | LoopExit.exited => some ⟨1, propagateStop stopRes⟩

theorem renderLoop_cons (t : Tick) (rest : List Tick) :
    renderLoop (t :: rest) =
      if t.isOpen && !t.escapePressed then
        if t.updateOk then renderLoop rest else LoopExit.drawError
      else LoopExit.exited := rfl

theorem renderLoop_exited_iff (ticks : List Tick) :
    renderLoop ticks = LoopExit.exited ↔
      ∃ pre t post, ticks = pre ++ t :: post ∧
        (∀ u ∈ pre, u.isOpen = true ∧ u.escapePressed = false ∧ u.updateOk = true) ∧
        (t.isOpen = false ∨ t.escapePressed = true) := by
  induction ticks with
  | nil =>
    constructor
    · intro hx
      exact absurd hx (by decide)
    · rintro ⟨pre, t, post, heq, -, -⟩
      exact absurd heq (by simp)
  | cons t rest ih =>
    by_cases hc : (t.isOpen && !t.escapePressed) = true
    · by_cases hu : t.updateOk = true
      · have hr : renderLoop (t :: rest) = renderLoop rest := by
          rw [renderLoop_cons, if_pos hc, if_pos hu]
        rw [hr, ih]
        constructor
        · rintro ⟨pre, t', post, heq, hpre, ht'⟩
          refine ⟨t :: pre, t', post, by rw [heq, List.cons_append], ?_, ht'⟩
          intro u hu'
          rcases List.mem_cons.mp hu' with h1 | h2
          · rw [h1]
            have hc' : t.isOpen = true ∧ t.escapePressed = false := by
              simpa using hc
            exact ⟨hc'.1, hc'.2, hu⟩
          · exact hpre u h2
        · rintro ⟨pre, t', post, heq, hpre, ht'⟩
          cases pre with
          | nil =>
            simp only [List.nil_append, List.cons.injEq] at heq
            obtain ⟨h1, h2⟩ := heq
            rw [← h1] at ht'
            rcases ht' with hcl | hesc
            · rw [hcl] at hc
              simp at hc
            · rw [hesc] at hc
              simp at hc
          | cons p ps =>
            simp only [List.cons_append, List.cons.injEq] at heq
            obtain ⟨h1, h2⟩ := heq
            exact ⟨ps, t', post, h2, fun u hu' => hpre u (by simp [hu']), ht'⟩
      · have hr : renderLoop (t :: rest) = LoopExit.drawError := by
          rw [renderLoop_cons, if_pos hc, if_neg hu]
        rw [hr]
        constructor
        · intro hx
          exact absurd hx (by decide)
        · rintro ⟨pre, t', post, heq, hpre, ht'⟩
          cases pre with
          | nil =>
            simp only [List.nil_append, List.cons.injEq] at heq
            obtain ⟨h1, h2⟩ := heq
            rw [← h1] at ht'
            rcases ht' with hcl | hesc
            · rw [hcl] at hc
              simp at hc
            · rw [hesc] at hc
              simp at hc
          | cons p ps =>
            simp only [List.cons_append, List.cons.injEq] at heq
            obtain ⟨h1, h2⟩ := heq
            rw [← h1] at hpre
            exact absurd (hpre t (by simp)).2.2 hu
    · have hr : renderLoop (t :: rest) = LoopExit.exited := by
        rw [renderLoop_cons, if_neg hc]
      rw [hr]
      constructor
      · intro _
        refine ⟨[], t, rest, rfl, by simp, ?_⟩
        cases hO : t.isOpen <;> cases hE : t.escapePressed <;> simp_all
      · intro _
        rfl

/-- C6 counterexample: on a tick where the window is open and Escape is not
pressed but update_with_buffer fails, the question-mark operator makes main
return the draw error at once: the pipeline terminates although neither
window-closed nor Escape was observed, and stop_capturing is called zero
times, not exactly once. -/
theorem C6_terminates_counterexample :
    mainRun [⟨true, false, false⟩] (Except.ok ()) =
      some ⟨0, Except.error RunError.drawFailed⟩ ∧
    (∀ t ∈ [(⟨true, false, false⟩ : Tick)],
      t.isOpen = true ∧ t.escapePressed = false) := by
  refine ⟨rfl, ?_⟩
  intro t ht
  rw [List.mem_singleton.mp ht]
  exact ⟨rfl, rfl⟩

/-- C6 amended: the render loop exits through the shutdown path exactly when
some tick reports the window closed or Escape pressed and every earlier tick
was open, Escape-free and drew successfully; in that case stop_capturing is
called exactly once and its awaited result is propagated as the final result
of main (an Err becomes the stopFailed outcome, not swallowed); but the loop
can also terminate through a failed update_with_buffer call, in which case
the draw error propagates and stop_capturing is called zero times. -/
theorem C6_terminates_amended (ticks : List Tick) (stopRes : Except Unit Unit) :
    (renderLoop ticks = LoopExit.exited →
      mainRun ticks stopRes = some ⟨1, propagateStop stopRes⟩) ∧
    (renderLoop ticks = LoopExit.drawError →
      mainRun ticks stopRes = some ⟨0, Except.error RunError.drawFailed⟩) ∧
    (renderLoop ticks = LoopExit.stillRunning → mainRun ticks stopRes = none) ∧
    (propagateStop (Except.error ()) = Except.error RunError.stopFailed) ∧
    (propagateStop (Except.ok ()) = Except.ok ()) ∧
    (renderLoop ticks = LoopExit.exited ↔
      ∃ pre t post, ticks = pre ++ t :: post ∧
        (∀ u ∈ pre, u.isOpen = true ∧ u.escapePressed = false ∧ u.updateOk = true) ∧
        (t.isOpen = false ∨ t.escapePressed = true)) := by
  refine ⟨?_, ?_, ?_, rfl, rfl, renderLoop_exited_iff ticks⟩
  · intro hx
    unfold mainRun
    rw [hx]
  · intro hx
    unfold mainRun
    rw [hx]
  · intro hx
    unfold mainRun
    rw [hx]

/-- C6 amended witness: a first tick with Escape pressed exits the loop, and
a failing stop_capturing result is propagated as the final result. -/
theorem C6_terminates_amended_witness :
    mainRun [⟨true, true, true⟩] (Except.error ()) =
      some ⟨1, Except.error RunError.stopFailed⟩ :=
  (C6_terminates_amended [⟨true, true, true⟩] (Except.error ())).1 rfl
